import Mathlib

/-!
Verification of the SVG poster generation core of strava_poster_builder.

The definitions below are a shallow embedding of the Python source:
  * `VisualComponents.calculate_responsive_dimensions`,
    `create_pace_histogram_svg`, `create_gps_map_svg`
    (project-strava-api/poster/visual_components.py),
  * `SVGPosterGenerator.generate_elevation_profile`
    (project-strava-api/services/svg_generator.py),
  * `TemplateManager.replace_placeholders` and
    `extract_placeholder_dimensions`
    (project-strava-api/poster/template_manager.py).

Python floats are modelled by `ℚ`; Python float division, which raises
`ZeroDivisionError` on a zero divisor, is modelled by `pydiv` returning
`Option ℚ` (`none` = the exception).  SVG output strings are modelled by
lists of drawing primitives carrying the numeric attributes the claims
talk about.
-/

namespace Poster

/-- A `{"width": w, "height": h}` result dictionary. -/
structure Dims where
  width : ℚ
  height : ℚ
deriving DecidableEq, Repr

/-- The `template_dimensions` argument: a (non-empty) Python dict whose
`'width'`/`'height'` keys may each be absent (`dict.get` then falls back
to the corresponding original dimension). An absent or empty dict is
modelled by `none` at the call site (`Option TemplateDims`). -/
structure TemplateDims where
  width? : Option ℚ
  height? : Option ℚ
deriving DecidableEq, Repr

/-- Python float division `a / b`: raises `ZeroDivisionError` (modelled
as `none`) when `b == 0`. -/
def pydiv (a b : ℚ) : Option ℚ :=
  if b = 0 then none else some (a / b)

/-- Embedding of `VisualComponents.calculate_responsive_dimensions`
(visual_components.py lines 30-81).  `none` output models an uncaught
exception (the function body has no try/except). -/
def calculate_responsive_dimensions (template_dimensions : Option TemplateDims)
    (original_width original_height : ℚ) : Option Dims :=
  match template_dimensions with
  | none => some ⟨original_width, original_height⟩
  | some td =>
    let max_width := td.width?.getD original_width
    let max_height := td.height?.getD original_height
    let original_ratio := if 0 < original_height then original_width / original_height else 1
    do
      let width_scale ← pydiv max_width original_width
      let height_scale ← pydiv max_height original_height
      let scale := min width_scale height_scale
      let new_width := original_width * scale
      let new_height := original_height * scale
      let min_dimension : ℚ := 10
      if new_width < min_dimension ∨ new_height < min_dimension then
        if new_width < new_height then do
          let nh ← pydiv min_dimension original_ratio
          pure ⟨min_dimension, nh⟩
        else
          pure ⟨min_dimension * original_ratio, min_dimension⟩
      else
        pure ⟨new_width, new_height⟩


/-- C1: for every target region map with positive width and height and
every positive source width/height pair, `calculate_responsive_dimensions`
returns a pair whose width/height ratio equals sourceWidth/sourceHeight
(exactly, in the rational model) and neither dimension is below the
10-unit floor. -/
theorem responsive_dims_ratio_and_floor
    (tw th W H : ℚ) (htw : 0 < tw) (hth : 0 < th) (hW : 0 < W) (hH : 0 < H) :
    ∃ r : Dims,
      calculate_responsive_dimensions (some ⟨some tw, some th⟩) W H = some r ∧
      r.width / r.height = W / H ∧ 10 ≤ r.width ∧ 10 ≤ r.height := by
  have hW0 : W ≠ 0 := ne_of_gt hW
  have hH0 : H ≠ 0 := ne_of_gt hH
  have hs : 0 < min (tw / W) (th / H) := lt_min (div_pos htw hW) (div_pos hth hH)
  have hratio0 : W / H ≠ 0 := div_ne_zero hW0 hH0
  simp only [calculate_responsive_dimensions, pydiv, Option.getD_some, if_neg hW0, if_neg hH0,
    if_pos hH, Bind.bind, Option.bind, Option.some_bind]
  by_cases hclamp : W * min (tw / W) (th / H) < 10 ∨ H * min (tw / W) (th / H) < 10
  · rw [if_pos hclamp]
    by_cases hlt : W * min (tw / W) (th / H) < H * min (tw / W) (th / H)
    · have hWH : W < H := lt_of_mul_lt_mul_right hlt (le_of_lt hs)
      rw [if_pos hlt]
      simp only [if_neg hratio0, Bind.bind, Option.bind]
      refine ⟨⟨10, 10 / (W / H)⟩, rfl, ?_, le_refl 10, ?_⟩
      · field_simp
        ring
      · rw [le_div_iff₀ (div_pos hW hH)]
        have h1 : W / H ≤ 1 := (div_le_one hH).mpr (le_of_lt hWH)
        nlinarith
    · have hWH : H ≤ W := by
        by_contra hcon
        push_neg at hcon
        exact hlt (by exact mul_lt_mul_of_pos_right hcon hs)
      rw [if_neg hlt]
      refine ⟨⟨10 * (W / H), 10⟩, rfl, ?_, ?_, le_refl 10⟩
      · field_simp
        ring
      · have h1 : 1 ≤ W / H := (one_le_div hH).mpr hWH
        nlinarith
  · rw [if_neg hclamp]
    push_neg at hclamp
    refine ⟨⟨W * min (tw / W) (th / H), H * min (tw / W) (th / H)⟩, rfl, ?_, hclamp.1, hclamp.2⟩
    exact mul_div_mul_right W H (ne_of_gt hs)

theorem responsive_dims_ratio_and_floor_witness :
    ∃ r : Dims,
      calculate_responsive_dimensions (some ⟨some 100, some 50⟩) 95 48 = some r ∧
      r.width / r.height = 95 / 48 ∧ 10 ≤ r.width ∧ 10 ≤ r.height :=
  responsive_dims_ratio_and_floor 100 50 95 48 (by norm_num) (by norm_num) (by norm_num)
    (by norm_num)

/-- C3: contrary to the claim, calling `calculate_responsive_dimensions`
with a target region holding explicit width/height entries and
`sourceHeight == 0` raises: the guard on line 51 only protects the
aspect-ratio computation, and line 56 (`height_scale = max_height /
original_height`) divides by zero unconditionally (`none` models the
uncaught `ZeroDivisionError`). -/
theorem responsive_dims_zero_height_raises :
    calculate_responsive_dimensions (some ⟨some 100, some 50⟩) 95 0 = none := by
  simp [calculate_responsive_dimensions, pydiv]


/-- One entry of the `km_splits` list. -/
structure Split where
  km : ℤ
  pace_min_per_km : ℚ
deriving DecidableEq, Repr

/-- The pace values retained by the filter in visual_components.py
lines 114-117: paces with `0 < pace < 20` (sentinel/garbage values are
dropped), in input order. -/
def filteredPaces (km_splits : List Split) : List ℚ :=
  (km_splits.filter
    (fun s => decide (0 < s.pace_min_per_km ∧ s.pace_min_per_km < 20))).map
    (·.pace_min_per_km)

/-- Python `max()` over a list of floats.  The source only applies it to
non-empty lists (`max()` raises on an empty one and the code returns
before reaching it); the `[]` case is junk. -/
def listMax : List ℚ → ℚ
  | [] => 0
  | x :: xs => xs.foldl max x

/-- Python `min()` over a list of floats (same convention as `listMax`). -/
def listMin : List ℚ → ℚ
  | [] => 0
  | x :: xs => xs.foldl min x

theorem foldl_max_init_le (xs : List ℚ) (a : ℚ) : a ≤ xs.foldl max a := by
  induction xs generalizing a with
  | nil => exact le_refl a
  | cons x xs ih => exact le_trans (le_max_left a x) (ih (max a x))

theorem le_listMax {l : List ℚ} {y : ℚ} (h : y ∈ l) : y ≤ listMax l := by
  match l with
  | x :: xs =>
    simp only [listMax]
    induction xs generalizing x with
    | nil => simp at h; simp [h]
    | cons z zs ih =>
      rcases List.mem_cons.mp h with h1 | h2
      · subst h1
        exact le_trans (le_max_left y z) (foldl_max_init_le zs (max y z))
      · rcases List.mem_cons.mp h2 with h3 | h4
        · subst h3
          exact le_trans (le_max_right x y) (foldl_max_init_le zs (max x y))
        · exact ih (max x z) (List.mem_cons_of_mem _ h4)

theorem foldl_min_le_init (xs : List ℚ) (a : ℚ) : xs.foldl min a ≤ a := by
  induction xs generalizing a with
  | nil => exact le_refl a
  | cons x xs ih => exact le_trans (ih (min a x)) (min_le_left a x)

theorem listMin_le {l : List ℚ} {y : ℚ} (h : y ∈ l) : listMin l ≤ y := by
  match l with
  | x :: xs =>
    simp only [listMin]
    induction xs generalizing x with
    | nil => simp at h; simp [h]
    | cons z zs ih =>
      rcases List.mem_cons.mp h with h1 | h2
      · subst h1
        exact le_trans (foldl_min_le_init zs (min y z)) (min_le_left y z)
      · rcases List.mem_cons.mp h2 with h3 | h4
        · subst h3
          exact le_trans (foldl_min_le_init zs (min x y)) (min_le_right x y)
        · exact ih (min x z) (List.mem_cons_of_mem _ h4)

/-- visual_components.py lines 122-139: invert each pace against the
maximum retained pace (`max_pace - pace + 1`) and normalise the inverted
values into `[min_bar_height, chart_height]`; if all inverted values are
equal every bar gets `chart_height / 2`.  `chart_height` is the
responsive height minus 10. -/
def normalized_heights (paces : List ℚ) (chart_height : ℚ) : List ℚ :=
  let max_pace := listMax paces
  let inverted_paces := paces.map (fun pace => max_pace - pace + 1)
  let min_bar_height := max 3 (chart_height * (8 / 100))
  let usable_height := chart_height - min_bar_height
  let max_inverted := listMax inverted_paces
  let min_inverted := listMin inverted_paces
  let range_inverted := max_inverted - min_inverted
  if 0 < range_inverted then
    inverted_paces.map
      (fun val => min_bar_height + (val - min_inverted) / range_inverted * usable_height)
  else
    List.replicate inverted_paces.length (chart_height / 2)

theorem normalized_heights_length (paces : List ℚ) (chart_height : ℚ) :
    (normalized_heights paces chart_height).length = paces.length := by
  unfold normalized_heights
  by_cases h : 0 < listMax (paces.map fun pace => listMax paces - pace + 1) -
      listMin (paces.map fun pace => listMax paces - pace + 1)
  · simp [h]
  · simp [h]

/-- The bar heights `create_pace_histogram_svg` draws for a given
`km_splits` list and template region: the responsive dimensions of the
95×48 histogram are computed first, then the heights are normalised into
the resulting chart height.  `[]` corresponds to the empty-string
returns. -/
def pace_histogram_heights (km_splits : List Split) (dims : Option TemplateDims) : List ℚ :=
  match calculate_responsive_dimensions dims 95 48 with
  | none => []
  | some rd => normalized_heights (filteredPaces km_splits) (rd.height - 10)

/-- C2: with the default region, among the retained splits a strictly
smaller (faster) pace always yields a strictly taller bar. -/
theorem pace_histogram_faster_taller (km_splits : List Split) (i j : ℕ)
    (hi : i < (filteredPaces km_splits).length)
    (hj : j < (filteredPaces km_splits).length)
    (hlt : (filteredPaces km_splits).getD i 0 < (filteredPaces km_splits).getD j 0) :
    (pace_histogram_heights km_splits none).getD j 0 <
      (pace_histogram_heights km_splits none).getD i 0 := by
  have hrd : calculate_responsive_dimensions none 95 48 = some ⟨95, 48⟩ := rfl
  set paces := filteredPaces km_splits with hpaces
  set M := listMax paces with hM
  set f : ℚ → ℚ := fun pace => M - pace + 1 with hf
  set inv := paces.map f with hinv
  set mininv := listMin inv with hmininv
  set maxinv := listMax inv with hmaxinv
  have hchart : ((38 : ℚ)) = 48 - 10 := by norm_num
  have hbar : max 3 ((38 : ℚ) * (8 / 100)) = 76 / 25 := by norm_num
  have husable : (0 : ℚ) < 38 - 76 / 25 := by norm_num
  -- the two inverted values
  have hpi : paces.getD i 0 ∈ paces := by
    rw [List.getD_eq_getElem _ _ hi]; exact List.getElem_mem _
  have hpj : paces.getD j 0 ∈ paces := by
    rw [List.getD_eq_getElem _ _ hj]; exact List.getElem_mem _
  have hvi : f (paces.getD i 0) ∈ inv := List.mem_map_of_mem f hpi
  have hvj : f (paces.getD j 0) ∈ inv := List.mem_map_of_mem f hpj
  have hfij : f (paces.getD j 0) < f (paces.getD i 0) := by
    simp only [hf]; linarith
  have hrange : 0 < maxinv - mininv := by
    have h1 := le_listMax hvi
    have h2 := listMin_le hvj
    rw [← hmaxinv] at h1
    rw [← hmininv] at h2
    linarith
  -- reduce the heights list
  unfold pace_histogram_heights
  rw [hrd]
  unfold normalized_heights
  simp only [← hpaces, ← hM, ← hf, ← hinv, ← hmininv, ← hmaxinv]
  rw [if_pos (by norm_num at hrange ⊢; exact hrange)]
  have hleni : i < (inv.map
      (fun val => max 3 ((48 - 10 : ℚ) * (8 / 100)) +
        (val - mininv) / (maxinv - mininv) * ((48 - 10) - max 3 ((48 - 10) * (8 / 100))))).length := by
    simpa [hinv] using hi
  have hlenj : j < (inv.map
      (fun val => max 3 ((48 - 10 : ℚ) * (8 / 100)) +
        (val - mininv) / (maxinv - mininv) * ((48 - 10) - max 3 ((48 - 10) * (8 / 100))))).length := by
    simpa [hinv] using hj
  rw [List.getD_eq_getElem _ _ hleni, List.getD_eq_getElem _ _ hlenj]
  simp only [List.getElem_map, hinv]
  rw [List.getD_eq_getElem _ _ hi, List.getD_eq_getElem _ _ hj] at hfij
  have hU : (0 : ℚ) < (48 - 10) - max 3 (((48 : ℚ) - 10) * (8 / 100)) := by norm_num
  apply add_lt_add_left
  refine mul_lt_mul_of_pos_right ?_ hU
  rw [div_lt_div_iff₀ hrange hrange]
  exact mul_lt_mul_of_pos_right (sub_lt_sub_right hfij mininv) hrange

/-- The spec's concrete example: splits with paces `[6.0, 5.0, 7.0]`. -/
def examplePaceSplits : List Split := [⟨1, 6⟩, ⟨2, 5⟩, ⟨3, 7⟩]

theorem pace_histogram_faster_taller_witness :
    (pace_histogram_heights examplePaceSplits none).getD 0 0 <
      (pace_histogram_heights examplePaceSplits none).getD 1 0 ∧
    (pace_histogram_heights examplePaceSplits none).getD 2 0 <
      (pace_histogram_heights examplePaceSplits none).getD 1 0 :=
  ⟨pace_histogram_faster_taller examplePaceSplits 1 0 (by decide) (by decide) (by decide),
   pace_histogram_faster_taller examplePaceSplits 1 2 (by decide) (by decide) (by decide)⟩


/-- Python `round()` on a float: nearest integer, ties to even. -/
def pyround (q : ℚ) : ℤ :=
  let f := ⌊q⌋
  let frac := q - f
  if frac < 1 / 2 then f
  else if 1 / 2 < frac then f + 1
  else if f % 2 = 0 then f else f + 1

/-- visual_components.py lines 158-164: convert the retained min/max pace
to whole seconds (`round(pace * 60)`) and widen to the enclosing
10-second boundaries (`//` is Python floor division). -/
def tickBounds (min_pace max_pace : ℚ) : ℤ × ℤ :=
  let min_pace_seconds := pyround (min_pace * 60)
  let max_pace_seconds := pyround (max_pace * 60)
  (Int.fdiv min_pace_seconds 10 * 10, (Int.fdiv max_pace_seconds 10 + 1) * 10)

/-- The `while current_seconds <= max_y_seconds` loop of lines 166-171:
ticks from `lo` to `hi` in steps of 10 seconds. -/
def tickList (lo hi : ℤ) : List ℤ :=
  if hi < lo then []
  else (List.range ((hi - lo) / 10 + 1).toNat).map (fun k => lo + 10 * k)

/-- One drawing primitive of an emitted SVG fragment. -/
inductive SvgElem where
  | line (x1 y1 x2 y2 : ℚ)
  | text (x y : ℚ) (label : String)
  | rect (x y w h : ℚ)
deriving DecidableEq, Repr

/-- The tick label `f"{tick_seconds // 60}:{tick_seconds % 60:02d}"`. -/
def paceLabel (s : ℤ) : String :=
  let m := Int.fdiv s 60
  let r := Int.fmod s 60
  toString m ++ ":" ++ (if r < 10 then "0" ++ toString r else toString r)

/-- The Y-axis tick loop of visual_components.py lines 186-203: a tick
line and a label for every tick pace within `[min_pace, max_pace]`.
The position `((tick_pace - min_pace) / (max_pace - min_pace)) *
chart_height` raises `ZeroDivisionError` (modelled `none`) when the
retained paces are all equal. -/
def tickElems (ticks : List ℤ) (min_pace max_pace chart_height y_axis_x : ℚ) :
    Option (List SvgElem) :=
  match ticks with
  | [] => some []
  | s :: rest => do
    let tick_pace : ℚ := (s : ℚ) / 60
    if min_pace ≤ tick_pace ∧ tick_pace ≤ max_pace then
      let q ← pydiv (tick_pace - min_pace) (max_pace - min_pace)
      let tick_y := q * chart_height
      let es ← tickElems rest min_pace max_pace chart_height y_axis_x
      pure ([SvgElem.line (y_axis_x - 1) tick_y (y_axis_x + 1) tick_y,
             SvgElem.text (y_axis_x - 3) (tick_y + 1) (paceLabel s)] ++ es)
    else
      tickElems rest min_pace max_pace chart_height y_axis_x

/-- The bar loop of lines 205-214: one `rect` per normalised height. -/
def barRects (heights : List ℚ) (bars_start_x bar_width spacing chart_height : ℚ) :
    List SvgElem :=
  heights.enum.map (fun p =>
    SvgElem.rect (bars_start_x + (p.1 : ℚ) * (bar_width + spacing)) (chart_height - p.2)
      bar_width p.2)

/-- Embedding of `VisualComponents.create_pace_histogram_svg`
(visual_components.py lines 83-221).  The result is the list of drawing
primitives of the emitted `<g>` fragment, in emission order; `none`
models every `return ""` — the guards for missing `km_splits` and for an
empty filtered pace list, and the catch-all `except` that turns any
exception (notably the tick-loop `ZeroDivisionError`) into the empty
string. -/
def create_pace_histogram_svg (km_splits : List Split) (dims : Option TemplateDims) :
    Option (List SvgElem) :=
  if km_splits = [] then none
  else do
    let rd ← calculate_responsive_dimensions dims 95 48
    let available_width := rd.width
    let max_height := rd.height
    match filteredPaces km_splits with
    | [] => none
    | p0 :: prest =>
      let paces := p0 :: prest
      let max_pace := listMax paces
      let chart_height := max_height - 10
      let heights := normalized_heights paces chart_height
      let y_axis_margin := max 15 (available_width * (15 / 100))
      let chart_width := available_width - y_axis_margin - 10
      let spacing := max (1 / 2) (chart_width * (1 / 100))
      let total_spacing := if 1 < paces.length then ((paces.length : ℚ) - 1) * spacing else 0
      let bar_width0 :=
        if 0 < paces.length then (chart_width - total_spacing) / (paces.length : ℚ)
        else chart_width
      let bar_width := min bar_width0 (max 8 (chart_width * (1 / 10)))
      let total_bars_width := (paces.length : ℚ) * bar_width + total_spacing
      let start_x := (5 + y_axis_margin) + (chart_width - total_bars_width) / 2
      let min_pace := listMin paces
      let bounds := tickBounds min_pace max_pace
      let ticks := tickList bounds.1 bounds.2
      let y_axis_x := y_axis_margin - 2
      let axis := SvgElem.line y_axis_x 0 y_axis_x chart_height
      let tickEs ← tickElems ticks min_pace max_pace chart_height y_axis_x
      let bars := barRects heights (start_x - 5) bar_width spacing chart_height
      pure ([axis] ++ tickEs ++ bars)

/-- Number of `rect` primitives in a fragment. -/
def countRects (es : List SvgElem) : ℕ :=
  (es.filter (fun e => match e with | .rect _ _ _ _ => true | _ => false)).length

/-- C8: for a filtered pace range of [5.05, 6.95] min/km the Y-axis tick
boundaries are rounded outward to 5:00 (300 s) and 7:00 (420 s) — never
inward — and the tick list covers them at 10-second granularity. -/
theorem tick_bounds_outward_example :
    tickBounds (listMin (filteredPaces [⟨1, 101 / 20⟩, ⟨2, 139 / 20⟩]))
        (listMax (filteredPaces [⟨1, 101 / 20⟩, ⟨2, 139 / 20⟩])) = (300, 420) ∧
    tickList 300 420 =
      [300, 310, 320, 330, 340, 350, 360, 370, 380, 390, 400, 410, 420] ∧
    (300 : ℤ) ≤ pyround ((101 / 20 : ℚ) * 60) ∧ pyround ((139 / 20 : ℚ) * 60) ≤ 420 := by
  have hfp : filteredPaces [⟨1, 101 / 20⟩, ⟨2, 139 / 20⟩] = [101 / 20, 139 / 20] := by
    norm_num [filteredPaces]
  have e1 : (101 / 20 : ℚ) * 60 = 303 := by norm_num
  have e2 : (139 / 20 : ℚ) * 60 = 417 := by norm_num
  have h303 : pyround ((101 / 20 : ℚ) * 60) = 303 := by
    rw [e1]; norm_num [pyround]
  have h417 : pyround ((139 / 20 : ℚ) * 60) = 417 := by
    rw [e2]; norm_num [pyround]
  have hmin : listMin [(101 / 20 : ℚ), 139 / 20] = 101 / 20 := by
    norm_num [listMin, min_def]
  have hmax : listMax [(101 / 20 : ℚ), 139 / 20] = 139 / 20 := by
    norm_num [listMax, max_def]
  refine ⟨?_, by decide, by rw [h303]; decide, by rw [h417]; decide⟩
  rw [hfp, hmin, hmax]
  simp only [tickBounds, h303, h417]
  decide

/-- C7 counterexample: the single retained split `pace = 5.0` lies
exactly on a 10-second boundary, so `min_pace == max_pace` and the tick
at 5:00 is inside the pace range: the tick loop divides by zero and the
error handler returns the empty string — not a fragment with one `rect`
per retained split. -/
theorem pace_histogram_equal_boundary_returns_empty :
    create_pace_histogram_svg [⟨1, 5⟩] none = none ∧ filteredPaces [⟨1, 5⟩] ≠ [] := by
  have hfp : filteredPaces [⟨1, 5⟩] = [5] := by norm_num [filteredPaces]
  refine ⟨?_, by rw [hfp]; simp⟩
  have hte : ∀ ch yx : ℚ, tickElems (tickList (tickBounds (listMin [(5 : ℚ)])
      (listMax [(5 : ℚ)])).1 (tickBounds (listMin [(5 : ℚ)]) (listMax [(5 : ℚ)])).2)
      (listMin [(5 : ℚ)]) (listMax [(5 : ℚ)]) ch yx = none := by
    intro ch yx
    have hm : listMin [(5 : ℚ)] = 5 := rfl
    have hM : listMax [(5 : ℚ)] = 5 := rfl
    have htb : tickBounds (5 : ℚ) 5 = (300, 310) := by
      have : pyround ((5 : ℚ) * 60) = 300 := by norm_num [pyround]
      simp only [tickBounds, this]
      decide
    have htl : tickList 300 310 = [300, 310] := by decide
    rw [hm, hM, htb, htl]
    simp only [tickElems, pydiv]
    norm_num
  simp only [create_pace_histogram_svg, hfp]
  norm_num [hte]

theorem countRects_append (a b : List SvgElem) :
    countRects (a ++ b) = countRects a + countRects b := by
  simp [countRects, List.filter_append]

theorem barRects_countRects (heights : List ℚ) (a b c d : ℚ) :
    countRects (barRects heights a b c d) = heights.length := by
  simp [countRects, barRects, List.filter_map]
  rw [List.filter_eq_self.mpr]
  · simp
  · intro e he
    simp

theorem responsive_dims_95_48_some (dims : Option TemplateDims) :
    ∃ rd, calculate_responsive_dimensions dims 95 48 = some rd := by
  cases dims with
  | none => exact ⟨⟨95, 48⟩, rfl⟩
  | some td =>
    norm_num [calculate_responsive_dimensions, pydiv, Bind.bind, Option.bind]
    split_ifs <;> exact ⟨_, rfl⟩

theorem tickElems_some_of_lt (ticks : List ℤ) (mp Mp ch yx : ℚ) (h : mp < Mp) :
    ∃ es, tickElems ticks mp Mp ch yx = some es ∧ countRects es = 0 := by
  induction ticks with
  | nil => exact ⟨[], rfl, rfl⟩
  | cons s rest ih =>
    obtain ⟨es, hes, hcnt⟩ := ih
    by_cases hc : mp ≤ (s : ℚ) / 60 ∧ (s : ℚ) / 60 ≤ Mp
    · have hne0 : Mp - mp ≠ 0 := sub_ne_zero_of_ne (ne_of_gt h)
      simp only [tickElems, if_pos hc, pydiv, if_neg hne0, Bind.bind, Option.bind, hes]
      refine ⟨_, rfl, ?_⟩
      rw [countRects_append, hcnt]
      rfl
    · simp only [tickElems, if_neg hc]
      exact ⟨es, hes, hcnt⟩

theorem tickElems_skip (ticks : List ℤ) (mp Mp ch yx : ℚ)
    (h : ∀ s ∈ ticks, ¬(mp ≤ (s : ℚ) / 60 ∧ (s : ℚ) / 60 ≤ Mp)) :
    tickElems ticks mp Mp ch yx = some [] := by
  induction ticks with
  | nil => rfl
  | cons s rest ih =>
    simp only [tickElems, if_neg (h s (List.mem_cons_self s rest))]
    exact ih (fun t ht => h t (List.mem_cons_of_mem s ht))

theorem tickList_dvd (lo hi s : ℤ) (hlo : (10 : ℤ) ∣ lo) (hs : s ∈ tickList lo hi) :
    (10 : ℤ) ∣ s := by
  unfold tickList at hs
  split at hs
  · simp at hs
  · obtain ⟨k, _, rfl⟩ := List.mem_map.mp hs
    exact dvd_add hlo ⟨k, rfl⟩

theorem listMin_le_listMax (l : List ℚ) (h : l ≠ []) : listMin l ≤ listMax l := by
  match l with
  | x :: xs =>
    exact le_trans (listMin_le (List.mem_cons_self x xs)) (le_listMax (List.mem_cons_self x xs))

/-- C7 (amended): the histogram retains exactly the splits with pace
strictly between 0 and 20 min/km; with nothing retained it returns the
empty string; otherwise — except when all retained paces equal one
common value lying exactly on a 10-second boundary (`6 * pace` a whole
number), where the Y-axis tick loop divides by zero and the error
handler returns the empty string instead — the returned fragment
contains exactly one `rect` element per retained split. -/
theorem pace_histogram_rect_count (km_splits : List Split) (dims : Option TemplateDims)
    (hsafe : filteredPaces km_splits = [] ∨
      listMin (filteredPaces km_splits) < listMax (filteredPaces km_splits) ∨
      ¬ ∃ k : ℤ, listMin (filteredPaces km_splits) * 6 = (k : ℚ)) :
    (filteredPaces km_splits = [] → create_pace_histogram_svg km_splits dims = none) ∧
    (filteredPaces km_splits ≠ [] →
      ∃ es, create_pace_histogram_svg km_splits dims = some es ∧
        countRects es = (filteredPaces km_splits).length) := by
  constructor
  · intro hfe
    by_cases hks : km_splits = []
    · simp [create_pace_histogram_svg, hks]
    · obtain ⟨rd, hrd⟩ := responsive_dims_95_48_some dims
      simp only [create_pace_histogram_svg, if_neg hks, hrd, Bind.bind, Option.bind, hfe]
  · intro hne
    have hks : km_splits ≠ [] := by
      intro h
      rw [h] at hne
      exact hne rfl
    obtain ⟨rd, hrd⟩ := responsive_dims_95_48_some dims
    rcases hfp : filteredPaces km_splits with - | ⟨p0, prest⟩
    · exact absurd hfp hne
    · rw [hfp] at hsafe
      simp only [create_pace_histogram_svg, if_neg hks, hrd, Bind.bind, Option.bind, hfp]
      have hminmax : listMin (p0 :: prest) ≤ listMax (p0 :: prest) :=
        listMin_le_listMax _ (List.cons_ne_nil p0 prest)
      have hTE : ∃ tes,
          tickElems (tickList (tickBounds (listMin (p0 :: prest)) (listMax (p0 :: prest))).1
            (tickBounds (listMin (p0 :: prest)) (listMax (p0 :: prest))).2)
            (listMin (p0 :: prest)) (listMax (p0 :: prest)) (rd.height - 10)
            (max 15 (rd.width * (15 / 100)) - 2) = some tes ∧ countRects tes = 0 := by
        by_cases hlt : listMin (p0 :: prest) < listMax (p0 :: prest)
        · exact tickElems_some_of_lt _ _ _ _ _ hlt
        · have heq : listMin (p0 :: prest) = listMax (p0 :: prest) :=
            le_antisymm hminmax (not_lt.mp hlt)
          have hC : ¬ ∃ k : ℤ, listMin (p0 :: prest) * 6 = (k : ℚ) := by
            rcases hsafe with h | h | h
            · exact absurd h (List.cons_ne_nil p0 prest)
            · exact absurd h hlt
            · exact h
          refine ⟨[], tickElems_skip _ _ _ _ _ ?_, rfl⟩
          intro s hs hc
          have hlo : (10 : ℤ) ∣ (tickBounds (listMin (p0 :: prest)) (listMax (p0 :: prest))).1 :=
            dvd_mul_left 10 (Int.fdiv (pyround (listMin (p0 :: prest) * 60)) 10)
          have hdvd : (10 : ℤ) ∣ s := tickList_dvd _ _ s hlo hs
          obtain ⟨t, rfl⟩ := hdvd
          rcases hc with ⟨h1, h2⟩
          rw [← heq] at h2
          have hsp : ((10 * t : ℤ) : ℚ) / 60 = listMin (p0 :: prest) := le_antisymm h2 h1
          apply hC
          refine ⟨t, ?_⟩
          have h60 : ((10 * t : ℤ) : ℚ) / 60 = (t : ℚ) / 6 := by
            push_cast
            ring
          rw [← hsp, h60]
          field_simp
      obtain ⟨tes, hte, hcnt⟩ := hTE
      rw [hte]
      refine ⟨_, rfl, ?_⟩
      rw [countRects_append, countRects_append, hcnt, barRects_countRects,
        normalized_heights_length]
      simp [countRects]

theorem pace_histogram_rect_count_witness :
    (filteredPaces examplePaceSplits = [] →
      create_pace_histogram_svg examplePaceSplits none = none) ∧
    (filteredPaces examplePaceSplits ≠ [] →
      ∃ es, create_pace_histogram_svg examplePaceSplits none = some es ∧
        countRects es = (filteredPaces examplePaceSplits).length) :=
  pace_histogram_rect_count examplePaceSplits none
    (Or.inr (Or.inl (by norm_num [filteredPaces, examplePaceSplits, listMin, listMax,
      min_def, max_def])))


/-- One entry of the `coordinates` list handed to `create_gps_map_svg`:
a `[lat, lon]` pair or a `[lat, lon, alt]` triple. -/
inductive GpsCoord where
  | pair (lat lon : ℚ)
  | triple (lat lon alt : ℚ)
deriving DecidableEq, Repr

/-- `coord[0]`. -/
def GpsCoord.lat : GpsCoord → ℚ
  | .pair la _ => la
  | .triple la _ _ => la

/-- `coord[1]`. -/
def GpsCoord.lon : GpsCoord → ℚ
  | .pair _ lo => lo
  | .triple _ lo _ => lo

/-- Outcome of `create_gps_map_svg`: the centered "Pas de données GPS"
text, or the `<g id="gps-track">` fragment — one path through the
projected points plus two circles at the first and last point — or the
"Erreur GPS" text produced by the catch-all except branch. -/
inductive GpsOutcome where
  | noData (cx cy : ℚ)
  | track (points : List (ℚ × ℚ)) (strokeWidth circleRadius : ℚ)
  | errorText
deriving DecidableEq, Repr

/-- Embedding of `VisualComponents.create_gps_map_svg`
(visual_components.py lines 223-313).  After the responsive 170×120
sizing and the `< 2` guard, the projection loop `for lat, lon in
coordinates` (line 277) unpacks each coordinate into exactly two
variables: any 3-element coordinate raises `ValueError`, which the
except branch turns into the "Erreur GPS" text. -/
def create_gps_map_svg (coordinates : List GpsCoord) (dims : Option TemplateDims) :
    GpsOutcome :=
  match calculate_responsive_dimensions dims 170 120 with
  | none => .errorText
  | some rd =>
    let map_width := rd.width
    let map_height := rd.height
    let center_x := map_width / 2
    let center_y := map_height / 2
    if coordinates.length < 2 then .noData center_x center_y
    else
      let lats := coordinates.map GpsCoord.lat
      let lons := coordinates.map GpsCoord.lon
      let min_lat := listMin lats
      let max_lat := listMax lats
      let min_lon := listMin lons
      let max_lon := listMax lons
      let lat_range0 := max_lat - min_lat
      let lon_range0 := max_lon - min_lon
      let lat_range := if lat_range0 = 0 then 1 / 1000 else lat_range0
      let lon_range := if lon_range0 = 0 then 1 / 1000 else lon_range0
      let margin := min 10 (min map_width map_height * (8 / 100))
      if coordinates.any (fun c => match c with | .triple _ _ _ => true | _ => false) then
        .errorText
      else
        let svg_points := coordinates.map (fun c =>
          (margin + (c.lon - min_lon) / lon_range * (map_width - 2 * margin),
           margin + (max_lat - c.lat) / lat_range * (map_height - 2 * margin)))
        let stroke_width := max (3 / 2) (min map_width map_height * (12 / 1000))
        let circle_radius := max 2 (min map_width map_height * (15 / 1000))
        .track svg_points stroke_width circle_radius

/-- C5: contrary to the claim, a list of `[lat, lon, alt]` triples does
not yield the path + circles fragment: the projection loop raises
`ValueError` on unpacking and the function returns the "Erreur GPS"
text.  (The repository's own test data builds exactly such
`(lat, lon, alt)` coordinates.) -/
theorem gps_map_triples_error :
    create_gps_map_svg [.triple 48 2 10, .triple (481 / 10) (21 / 10) 20] none =
      .errorText ∧ (2 : ℕ) ≤ [GpsCoord.triple 48 2 10,
        .triple (481 / 10) (21 / 10) 20].length := by
  constructor
  · rfl
  · decide

/-- One entry of the `coordinates` argument of
`SVGPosterGenerator.generate_elevation_profile`; `alt = none` models
both a 2-element coordinate and an explicit `None` altitude (the filter
`len(coord) > 2 and coord[2] is not None` rejects either). -/
structure ElevCoord where
  lat : ℚ
  lon : ℚ
  alt : Option ℚ
deriving DecidableEq, Repr

/-- Result of `generate_elevation_profile`'s guard logic: `emptyStr`
models `return ""`; `plot n elevations` models handing matplotlib a
cumulative-distance list with one entry per coordinate (`n` of them)
together with the filtered `elevations` list (`fill_between` demands
equal lengths and raises `ValueError` otherwise). -/
inductive ElevOutcome where
  | emptyStr
  | plot (distanceCount : ℕ) (elevations : List ℚ)
deriving DecidableEq, Repr

/-- Embedding of `SVGPosterGenerator.generate_elevation_profile`
(services/svg_generator.py lines 133-161): fewer than 2 *coordinates*
return ""; entries lacking altitude are dropped from `elevations`, and
only a fully empty `elevations` list returns "" — while the distance
list built on lines 151-161 always keeps one entry per coordinate. -/
def generate_elevation_profile (coordinates : List ElevCoord) : ElevOutcome :=
  if coordinates.length < 2 then .emptyStr
  else
    let elevations := coordinates.filterMap (·.alt)
    if elevations = [] then .emptyStr
    else .plot coordinates.length elevations

/-- C4: contrary to the claim, a 2-coordinate list with exactly one
altitude-bearing sample does not return an empty fragment: the `< 2`
guard counts coordinates, not altitude-bearing samples, so the function
proceeds and pairs a 2-entry distance list with a 1-entry elevation
list. -/
theorem elevation_profile_single_altitude_not_empty :
    generate_elevation_profile [⟨0, 0, none⟩, ⟨1, 1, some 100⟩] = .plot 2 [100] ∧
    ElevOutcome.plot 2 [100] ≠ .emptyStr :=
  ⟨rfl, fun h => ElevOutcome.noConfusion h⟩


/-- One `<rect ... x=".." y=".." width=".." height=".."/>` occurrence in
the template text: `pos`/`len` span the raw markup in the document, the
four attributes follow as parsed floats, and `sig` is the raw markup
string itself — the signature `extract_placeholder_dimensions` stores
in `used_rects` (line 204). -/
structure RectOcc where
  pos : ℕ
  len : ℕ
  x : ℚ
  y : ℚ
  w : ℚ
  h : ℚ
  sig : String
deriving DecidableEq, Repr

/-- One match of the structural pass's group pattern (line 113):
`<g ... transform="translate(tx, ty)" ... id=".." ...>…{{placeholder}}…</g>`,
with `pos` the match start. -/
structure GroupOcc where
  pos : ℕ
  tx : ℚ
  ty : ℚ
  placeholder : String
deriving DecidableEq, Repr

/-- One `{{\w+}}` marker occurrence (line 155): `pos` = match.start(),
`endPos` = match.end(). -/
structure MarkerOcc where
  pos : ℕ
  endPos : ℕ
  name : String
deriving DecidableEq, Repr

/-- A standalone `width="v"` or `height="v"` attribute occurrence
(lines 213-218). -/
structure AttrOcc where
  pos : ℕ
  endPos : ℕ
  value : ℚ
deriving DecidableEq, Repr

/-- The template document as seen through the regexes of
`extract_placeholder_dimensions`: the structural-pass group matches, all
marker occurrences, all rectangle occurrences and all standalone
width/height attribute occurrences, each in document order with its
character span.  This tokenised view stands in for running the Python
regexes over the raw template text. -/
structure TemplateModel where
  groups : List GroupOcc
  markers : List MarkerOcc
  rects : List RectOcc
  widthAttrs : List AttrOcc
  heightAttrs : List AttrOcc
deriving DecidableEq, Repr

/-- The mutable state of one `extract_placeholder_dimensions` run:
the `dimensions` dict, the `used_rects` signature set, and — for the
proofs — the provenance of each binding (`prov`) and the ordered list of
proximity-pass picks (`chosen`). -/
structure ScanState where
  dims : String → Option Dims
  prov : String → Option RectOcc
  used : List String
  chosen : List (String × RectOcc)

/-- `dimensions[k] = v`. -/
def setDim (f : String → Option Dims) (k : String) (v : Dims) : String → Option Dims :=
  fun s => if s = k then some v else f s

/-- Provenance counterpart of `setDim`. -/
def setProv (f : String → Option RectOcc) (k : String) (r : RectOcc) :
    String → Option RectOcc :=
  fun s => if s = k then some r else f s

/-- template_manager.py lines 130-144: the rectangle whose (x, y) is
nearest in Manhattan distance to the group's translation offset;
`min_distance` starts at infinity and the strict `<` keeps the first
minimum. -/
def closestRect (cands : List RectOcc) (tx ty : ℚ) : Option RectOcc :=
  (cands.foldl (fun acc r =>
    let d := |r.x - tx| + |r.y - ty|
    match acc with
    | none => some (r, d)
    | some (_, best) => if d < best then some (r, d) else acc) none).map Prod.fst

/-- One structural-pass iteration (lines 116-152): bind the group's
placeholder to the rectangle wholly before the group that is closest to
its translation offset.  Nothing is marked used here. -/
def structStep (tm : TemplateModel) (st : ScanState) (g : GroupOcc) : ScanState :=
  match closestRect (tm.rects.filter (fun r => decide (r.pos + r.len ≤ g.pos))) g.tx g.ty with
  | none => st
  | some r =>
    { st with dims := setDim st.dims g.placeholder ⟨r.w, r.h⟩,
              prov := setProv st.prov g.placeholder r }

/-- The structural pass (lines 112-152) over the group matches in
document order. -/
def structuralPass (tm : TemplateModel) (st : ScanState) : ScanState :=
  tm.groups.foldl (structStep tm) st

/-- The sort key of line 161: `(m.group(1) != 'CUSTOM_GRAPH', m.start())`,
compared lexicographically (Python tuple `<=`). -/
def markerLeB (a b : MarkerOcc) : Bool :=
  (!(decide (a.name ≠ "CUSTOM_GRAPH")) && decide (b.name ≠ "CUSTOM_GRAPH")) ||
    ((decide (a.name ≠ "CUSTOM_GRAPH")) == (decide (b.name ≠ "CUSTOM_GRAPH")) &&
      decide (a.pos ≤ b.pos))

/-- Stable insertion of `a` into a sorted list (before the first element
it compares `le` to). -/
def ordInsert {α : Type} (le : α → α → Bool) (a : α) : List α → List α
  | [] => [a]
  | b :: l => if le a b then a :: b :: l else b :: ordInsert le a l

/-- Stable insertion sort, modelling Python's stable `list.sort`. -/
def insSort {α : Type} (le : α → α → Bool) : List α → List α
  | [] => []
  | a :: l => ordInsert le a (insSort le l)

/-- One iteration of the `max_area` scan of lines 190-197: update
`best_rect` when this rectangle's area strictly exceeds the best so far
(`max_area` starts at 0, so all-zero areas leave `best_rect = None`). -/
def maxAreaStep (acc : Option (RectOcc × ℚ)) (r : RectOcc) : Option (RectOcc × ℚ) :=
  let area := r.w * r.h
  match acc with
  | none => if 0 < area then some (r, area) else none
  | some (_, best) => if best < area then some (r, area) else acc

/-- Lines 188-198: among several available rectangles for `GPX_TRACK`
take the first with strictly largest area. -/
def maxAreaRect (l : List RectOcc) : Option RectOcc :=
  (l.foldl maxAreaStep none).map Prod.fst

/-- Line 170: the search window reaches 800 characters back for
`GPX_TRACK`, 300 for the others. -/
def searchDistance (m : MarkerOcc) : ℕ :=
  if m.name = "GPX_TRACK" then 800 else 300

/-- The rectangles wholly inside `context = template[start_pos :
m.end()]` (line 171-176); `m.pos - searchDistance m` is natural
subtraction, matching Python's `max(0, ...)`. -/
def windowRects (tm : TemplateModel) (m : MarkerOcc) : List RectOcc :=
  tm.rects.filter (fun r =>
    decide (m.pos - searchDistance m ≤ r.pos ∧ r.pos + r.len ≤ m.endPos))

/-- Line 179-184: the window rectangles whose signature is not yet in
`used_rects`. -/
def availRects (tm : TemplateModel) (st : ScanState) (m : MarkerOcc) : List RectOcc :=
  (windowRects tm m).filter (fun r => decide (r.sig ∉ st.used))

/-- The standalone `width="..."` occurrences inside the window
(lines 213-217). -/
def windowWidthAttrs (tm : TemplateModel) (m : MarkerOcc) : List AttrOcc :=
  tm.widthAttrs.filter (fun a =>
    decide (m.pos - searchDistance m ≤ a.pos ∧ a.endPos ≤ m.endPos))

/-- The standalone `height="..."` occurrences inside the window. -/
def windowHeightAttrs (tm : TemplateModel) (m : MarkerOcc) : List AttrOcc :=
  tm.heightAttrs.filter (fun a =>
    decide (m.pos - searchDistance m ≤ a.pos ∧ a.endPos ≤ m.endPos))

/-- Lines 188-201: the rectangle actually chosen among the available
ones — the first with strictly largest area for `GPX_TRACK` when several
are available (falling back to the last), the last one otherwise. -/
def chosenRect (tm : TemplateModel) (st : ScanState) (m : MarkerOcc)
    (lastRect : RectOcc) : RectOcc :=
  if m.name = "GPX_TRACK" ∧ 1 < (availRects tm st m).length then
    (maxAreaRect (availRects tm st m)).getD lastRect
  else lastRect

/-- Lines 203-210: record the binding — dimensions, provenance, the
signature into `used_rects`, and the ordered pick list. -/
def bindRect (st : ScanState) (name : String) (r : RectOcc) : ScanState :=
  { st with
    dims := setDim st.dims name ⟨r.w, r.h⟩,
    prov := setProv st.prov name r,
    used := st.used ++ [r.sig],
    chosen := st.chosen ++ [(name, r)] }

/-- One proximity-pass iteration (lines 163-228) for marker `m`:
skip markers already resolved; otherwise, if the window holds
rectangles, choose among those with unused signatures and bind the
chosen one; if the window holds no rectangle at all, fall back to the
last standalone width/height attribute pair in the window. -/
def proxStep (tm : TemplateModel) (st : ScanState) (m : MarkerOcc) : ScanState :=
  if (st.dims m.name).isSome then st
  else if (windowRects tm m).isEmpty then
    match (windowWidthAttrs tm m).getLast?, (windowHeightAttrs tm m).getLast? with
    | some wv, some hv => { st with dims := setDim st.dims m.name ⟨wv.value, hv.value⟩ }
    | _, _ => st
  else
    match (availRects tm st m).getLast? with
    | none => st
    | some lastRect => bindRect st m.name (chosenRect tm st m lastRect)

/-- The proximity pass (lines 154-228) over the sorted marker list. -/
def proximityPass (tm : TemplateModel) : List MarkerOcc → ScanState → ScanState
  | [], st => st
  | m :: rest, st => proximityPass tm rest (proxStep tm st m)

/-- The hardcoded defaults of lines 231-235. -/
def defaultDims (p : String) : Option Dims :=
  if p = "CUSTOM_GRAPH" then some ⟨95, 48⟩
  else if p = "GPX_TRACK" then some ⟨170, 120⟩
  else if p = "ELEVATION_PROFILE" then some ⟨95, 48⟩
  else none

/-- The empty starting state (`dimensions = {}`, `used_rects = set()`). -/
def initState : ScanState := ⟨fun _ => none, fun _ => none, [], []⟩

/-- The two scanning passes of `extract_placeholder_dimensions`
(markers sorted so `CUSTOM_GRAPH` is handled before the others —
line 161). -/
def scanPasses (tm : TemplateModel) : ScanState :=
  proximityPass tm (insSort markerLeB tm.markers) (structuralPass tm initState)

/-- Embedding of `TemplateManager.extract_placeholder_dimensions`
(template_manager.py lines 101-252): the two scanning passes, then the
hardcoded defaults for any known placeholder still unresolved (lines
237-240).  The catch-all except of lines 245-252 returns exactly the
default map, which this total embedding also produces for a scan that
binds nothing. -/
def extract_placeholder_dimensions (tm : TemplateModel) : String → Option Dims :=
  let st := scanPasses tm
  fun p =>
    match st.dims p with
    | some d => some d
    | none => defaultDims p

theorem maxAreaStep_cases (acc : Option (RectOcc × ℚ)) (r : RectOcc) (rd : RectOcc × ℚ)
    (h : maxAreaStep acc r = some rd) : rd.1 = r ∨ acc = some rd := by
  unfold maxAreaStep at h
  rcases acc with - | p
  · simp only at h
    split at h
    · exact Or.inl (by cases h; rfl)
    · exact absurd h (by simp)
  · simp only at h
    split at h
    · exact Or.inl (by cases h; rfl)
    · exact Or.inr h

theorem foldl_maxAreaStep_mem (l : List RectOcc) :
    ∀ (acc : Option (RectOcc × ℚ)) (rd : RectOcc × ℚ),
      l.foldl maxAreaStep acc = some rd → acc = some rd ∨ rd.1 ∈ l := by
  induction l with
  | nil => intro acc rd h; exact Or.inl h
  | cons r l ih =>
    intro acc rd h
    rcases ih (maxAreaStep acc r) rd h with h1 | h2
    · rcases maxAreaStep_cases acc r rd h1 with h3 | h4
      · exact Or.inr (h3 ▸ List.mem_cons_self r l)
      · exact Or.inl h4
    · exact Or.inr (List.mem_cons_of_mem r h2)

theorem maxAreaRect_mem (l : List RectOcc) (r : RectOcc) (h : maxAreaRect l = some r) :
    r ∈ l := by
  unfold maxAreaRect at h
  rcases Option.map_eq_some'.mp h with ⟨rd, hrd, hfst⟩
  rcases foldl_maxAreaStep_mem l none rd hrd with h1 | h2
  · exact absurd h1 (by simp)
  · exact hfst ▸ h2

theorem getLastQ_mem {α : Type} (l : List α) (r : α) (h : l.getLast? = some r) : r ∈ l := by
  obtain ⟨hne, hx⟩ := List.mem_getLast?_eq_getLast (x := r) (by rw [Option.mem_def, h])
  exact hx ▸ List.getLast_mem hne

theorem availRects_sig_not_used (tm : TemplateModel) (st : ScanState) (m : MarkerOcc)
    (c : RectOcc) (hc : c ∈ availRects tm st m) : c.sig ∉ st.used := by
  have := (List.mem_filter.mp hc).2
  simpa using this

theorem chosenRect_mem (tm : TemplateModel) (st : ScanState) (m : MarkerOcc)
    (lastRect : RectOcc) (hlast : (availRects tm st m).getLast? = some lastRect) :
    chosenRect tm st m lastRect ∈ availRects tm st m := by
  unfold chosenRect
  split_ifs with hc
  · rcases hmar : maxAreaRect (availRects tm st m) with - | br
    · exact getLastQ_mem _ _ hlast
    · exact maxAreaRect_mem _ _ hmar
  · exact getLastQ_mem _ _ hlast

theorem proxStep_used_chosen (tm : TemplateModel) (st : ScanState) (m : MarkerOcc) :
    ((proxStep tm st m).used = st.used ∧ (proxStep tm st m).chosen = st.chosen) ∨
    (∃ r, r.sig ∉ st.used ∧ (proxStep tm st m).used = st.used ++ [r.sig] ∧
      (proxStep tm st m).chosen = st.chosen ++ [(m.name, r)]) := by
  unfold proxStep
  by_cases h1 : (st.dims m.name).isSome
  · rw [if_pos h1]
    exact Or.inl ⟨rfl, rfl⟩
  · rw [if_neg h1]
    by_cases h2 : (windowRects tm m).isEmpty
    · rw [if_pos h2]
      rcases (windowWidthAttrs tm m).getLast? with - | wv <;>
        rcases (windowHeightAttrs tm m).getLast? with - | hv <;>
        exact Or.inl ⟨rfl, rfl⟩
    · rw [if_neg h2]
      rcases hlast : (availRects tm st m).getLast? with - | lastRect
      · exact Or.inl ⟨rfl, rfl⟩
      · exact Or.inr ⟨chosenRect tm st m lastRect,
          availRects_sig_not_used tm st m _ (chosenRect_mem tm st m lastRect hlast),
          rfl, rfl⟩

theorem proximityPass_nodup (tm : TemplateModel) (ms : List MarkerOcc) :
    ∀ (st : ScanState),
      (∀ s ∈ st.chosen.map (fun pr => pr.2.sig), s ∈ st.used) →
      (st.chosen.map (fun pr => pr.2.sig)).Nodup →
      ((proximityPass tm ms st).chosen.map (fun pr => pr.2.sig)).Nodup := by
  induction ms with
  | nil => intro st _ h2; exact h2
  | cons m rest ih =>
    intro st h1 h2
    rcases proxStep_used_chosen tm st m with ⟨hu, hc⟩ | ⟨r, hnotin, hu, hc⟩
    · exact ih _ (by rw [hc, hu]; exact h1) (by rw [hc]; exact h2)
    · refine ih _ ?_ ?_
      · intro s hs
        rw [hc, List.map_append, List.mem_append] at hs
        rw [hu]
        rcases hs with hs | hs
        · exact List.mem_append_left _ (h1 s hs)
        · simp only [List.map_cons, List.map_nil, List.mem_singleton] at hs
          exact hs ▸ List.mem_append_right _ (List.mem_singleton_self _)
      · rw [hc, List.map_append]
        rw [List.nodup_append]
        refine ⟨h2, List.nodup_singleton _, ?_⟩
        intro s hs hs2
        simp only [List.map_cons, List.map_nil, List.mem_singleton] at hs2
        exact hnotin (hs2 ▸ h1 s hs)

theorem structStep_fields (tm : TemplateModel) (st : ScanState) (g : GroupOcc) :
    (structStep tm st g).used = st.used ∧ (structStep tm st g).chosen = st.chosen := by
  unfold structStep
  rcases closestRect (tm.rects.filter (fun r => decide (r.pos + r.len ≤ g.pos))) g.tx g.ty
    with - | r <;> exact ⟨rfl, rfl⟩

theorem structuralPass_fields (tm : TemplateModel) (st : ScanState) :
    (structuralPass tm st).used = st.used ∧ (structuralPass tm st).chosen = st.chosen := by
  unfold structuralPass
  generalize tm.groups = gs
  induction gs generalizing st with
  | nil => exact ⟨rfl, rfl⟩
  | cons g gs ih =>
    simp only [List.foldl_cons]
    obtain ⟨hu, hc⟩ := ih (structStep tm st g)
    obtain ⟨hu2, hc2⟩ := structStep_fields tm st g
    exact ⟨hu.trans hu2, hc.trans hc2⟩

/-- C10 (amended): within the proximity pass every chosen rectangle's
raw markup is added to `used_rects` and later picks are filtered to
unused signatures, so no two proximity-pass bindings ever share a
rectangle signature; the structural pass, however, marks nothing used,
and two placeholders it resolves can share one rectangle occurrence
(see the counterexample). -/
theorem proximity_pass_signatures_distinct (tm : TemplateModel) :
    ((scanPasses tm).chosen.map (fun pr => pr.2.sig)).Nodup := by
  unfold scanPasses
  have hf := structuralPass_fields tm initState
  apply proximityPass_nodup
  · intro s hs
    rw [hf.2] at hs
    simp [initState] at hs
  · rw [hf.2]
    simp [initState]

/-- C6: `extract_placeholder_dimensions` always returns a map covering
the three known placeholders, and any of them the two scanning passes
left unresolved receives its hardcoded default (histogram 95×48, map
170×120, elevation profile 95×48).  The embedding is total — in the
source, a scan exception reaches the catch-all except, whose full
default map this same shape describes. -/
theorem extract_dimensions_known_defaults (tm : TemplateModel) :
    ((extract_placeholder_dimensions tm "CUSTOM_GRAPH").isSome ∧
      ((scanPasses tm).dims "CUSTOM_GRAPH" = none →
        extract_placeholder_dimensions tm "CUSTOM_GRAPH" = some ⟨95, 48⟩)) ∧
    ((extract_placeholder_dimensions tm "GPX_TRACK").isSome ∧
      ((scanPasses tm).dims "GPX_TRACK" = none →
        extract_placeholder_dimensions tm "GPX_TRACK" = some ⟨170, 120⟩)) ∧
    ((extract_placeholder_dimensions tm "ELEVATION_PROFILE").isSome ∧
      ((scanPasses tm).dims "ELEVATION_PROFILE" = none →
        extract_placeholder_dimensions tm "ELEVATION_PROFILE" = some ⟨95, 48⟩)) := by
  unfold extract_placeholder_dimensions
  refine ⟨⟨?_, fun h => ?_⟩, ⟨?_, fun h => ?_⟩, ⟨?_, fun h => ?_⟩⟩
  · rcases hd : (scanPasses tm).dims "CUSTOM_GRAPH" with - | d <;> simp [hd, defaultDims]
  · simp [h, defaultDims]
  · rcases hd : (scanPasses tm).dims "GPX_TRACK" with - | d <;> simp [hd, defaultDims]
  · simp [h, defaultDims]
  · rcases hd : (scanPasses tm).dims "ELEVATION_PROFILE" with - | d <;> simp [hd, defaultDims]
  · simp [h, defaultDims]

/-- A template with no matches at all. -/
def emptyTemplate : TemplateModel := ⟨[], [], [], [], []⟩

theorem extract_dimensions_known_defaults_witness :
    ((extract_placeholder_dimensions emptyTemplate "CUSTOM_GRAPH").isSome ∧
      ((scanPasses emptyTemplate).dims "CUSTOM_GRAPH" = none →
        extract_placeholder_dimensions emptyTemplate "CUSTOM_GRAPH" = some ⟨95, 48⟩)) ∧
    ((extract_placeholder_dimensions emptyTemplate "GPX_TRACK").isSome ∧
      ((scanPasses emptyTemplate).dims "GPX_TRACK" = none →
        extract_placeholder_dimensions emptyTemplate "GPX_TRACK" = some ⟨170, 120⟩)) ∧
    ((extract_placeholder_dimensions emptyTemplate "ELEVATION_PROFILE").isSome ∧
      ((scanPasses emptyTemplate).dims "ELEVATION_PROFILE" = none →
        extract_placeholder_dimensions emptyTemplate "ELEVATION_PROFILE" = some ⟨95, 48⟩)) :=
  extract_dimensions_known_defaults emptyTemplate

/-- The single rectangle of the two-group counterexample template. -/
def sharedRect : RectOcc :=
  ⟨0, 44, 10, 10, 50, 30, "<rect x=\"10\" y=\"10\" width=\"50\" height=\"30\"/>"⟩

/-- Tokenisation of the template text

    <rect x="10" y="10" width="50" height="30"/>
    <g transform="translate(12, 14)" id="zone1">{{CUSTOM_GRAPH}}</g>
    <g transform="translate(60, 70)" id="zone2">{{ELEVATION_PROFILE}}</g>

(one line per element; the rectangle spans characters 0-43, the group
matches start at 45 and 110, the markers span 89-105 and 154-175, and
the rectangle's own `width="50"`/`height="30"` attributes sit at
20-30/31-42). -/
def doubleBindTemplate : TemplateModel :=
  ⟨[⟨45, 12, 14, "CUSTOM_GRAPH"⟩, ⟨110, 60, 70, "ELEVATION_PROFILE"⟩],
   [⟨89, 105, "CUSTOM_GRAPH"⟩, ⟨154, 175, "ELEVATION_PROFILE"⟩],
   [sharedRect],
   [⟨20, 30, 50⟩],
   [⟨31, 42, 30⟩]⟩

/-- C10 counterexample: in `doubleBindTemplate` the structural pass
binds BOTH `CUSTOM_GRAPH` and `ELEVATION_PROFILE` to the one rectangle
occurrence `sharedRect` — the structural pass never marks a rectangle
as used, so the returned map sources two placeholders from the same
rectangle. -/
theorem extract_dimensions_shared_rect :
    (scanPasses doubleBindTemplate).prov "CUSTOM_GRAPH" = some sharedRect ∧
    (scanPasses doubleBindTemplate).prov "ELEVATION_PROFILE" = some sharedRect ∧
    extract_placeholder_dimensions doubleBindTemplate "CUSTOM_GRAPH" = some ⟨50, 30⟩ ∧
    extract_placeholder_dimensions doubleBindTemplate "ELEVATION_PROFILE" = some ⟨50, 30⟩ :=
  ⟨rfl, rfl, rfl, rfl⟩


/-- A string without brace characters — placeholder names (regex `\w+`)
are of this kind. -/
def braceFreeStr (s : List Char) : Prop := '{' ∉ s ∧ '}' ∉ s

instance (s : List Char) : Decidable (braceFreeStr s) := by
  unfold braceFreeStr
  infer_instance

/-- The delimited `{{name}}` marker text. -/
def marker (name : List Char) : List Char := '{' :: '{' :: (name ++ ['}', '}'])

/-- Python `str.replace(pat, rep)`: scan left to right, replacing each
non-overlapping occurrence of `pat`.  (The source only calls this with
the non-empty `{{…}}` patterns; an empty pattern is a no-op here.) -/
def replaceAll (pat rep : List Char) : List Char → List Char
  | [] => []
  | c :: s =>
    if h : pat ≠ [] ∧ pat.isPrefixOf (c :: s) then
      rep ++ replaceAll pat rep ((c :: s).drop pat.length)
    else c :: replaceAll pat rep s
termination_by s => s.length
decreasing_by
  · simp only [List.length_drop, List.length_cons]
    have := List.length_pos.mpr h.1
    omega
  · simp

/-- template_manager.py lines 80-82: a key not already of the form
`{{…}}` is wrapped into one. -/
def wrapKey (k : List Char) : List Char :=
  if ['{', '{'] <+: k ∧ ['}', '}'] <:+ k then k
  else '{' :: '{' :: (k ++ ['}', '}'])

/-- Embedding of `TemplateManager.replace_placeholders`
(template_manager.py lines 67-86): fold the replacement pairs over the
content with Python `str.replace`; replacement values are strings
already, so `str(value)` is the identity.  The function is total:
no input can make it raise. -/
def replace_placeholders (content : List Char)
    (replacements : List (List Char × List Char)) : List Char :=
  replacements.foldl (fun acc kv => replaceAll (wrapKey kv.1) kv.2 acc) content

theorem wrapKey_eq_marker {k : List Char} (hk : braceFreeStr k) :
    wrapKey k = marker k := by
  unfold wrapKey marker
  rw [if_neg]
  rintro ⟨hp, -⟩
  exact hk.1 (hp.subset (List.mem_cons_self _ _))

theorem marker_ne_nil (name : List Char) : marker name ≠ [] := by
  simp [marker]

/-- Core comparison: if one `name}}` tail is a prefix of another
`name'}}` tail (with anything after), the names coincide — brace-free
name characters can never stand where the closing braces do. -/
theorem marker_tail_determines_name : ∀ (K B : List Char), braceFreeStr K → braceFreeStr B →
    ∀ r, (K ++ ['}', '}']) <+: ((B ++ ['}', '}']) ++ r) → K = B := by
  intro K
  induction K with
  | nil =>
    intro B hK hB r h
    cases B with
    | nil => rfl
    | cons b B' =>
      simp only [List.nil_append, List.cons_append] at h
      obtain ⟨hb, -⟩ := List.cons_prefix_cons.mp h
      exact absurd (by rw [hb]; exact List.mem_cons_self _ _ : '}' ∈ b :: B')
        (fun hm => hB.2 hm)
  | cons k K' ih =>
    intro B hK hB r h
    cases B with
    | nil =>
      simp only [List.cons_append, List.nil_append] at h
      obtain ⟨hb, -⟩ := List.cons_prefix_cons.mp h
      exact absurd (by rw [← hb]; exact List.mem_cons_self _ _ : '}' ∈ k :: K')
        (fun hm => hK.2 hm)
    | cons b B' =>
      simp only [List.cons_append] at h
      obtain ⟨hb, ht⟩ := List.cons_prefix_cons.mp h
      have hK' : braceFreeStr K' := ⟨fun m => hK.1 (List.mem_cons_of_mem _ m),
        fun m => hK.2 (List.mem_cons_of_mem _ m)⟩
      have hB' : braceFreeStr B' := ⟨fun m => hB.1 (List.mem_cons_of_mem _ m),
        fun m => hB.2 (List.mem_cons_of_mem _ m)⟩
      rw [hb, ih B' hK' hB' r ht]

/-- No occurrence of one marker can start strictly inside another
marker for a different brace-free name: the overlap always forces a
brace character where none can be. -/
theorem marker_no_overlap {B K : List Char} (hB : braceFreeStr B) (hK : braceFreeStr K)
    (hne : B ≠ K) :
    ∀ (i : ℕ), i < (marker K).length → ∀ r, ¬ marker B <+: ((marker K).drop i ++ r) := by
  intro i hi r h
  match i with
  | 0 =>
    simp only [List.drop_zero] at h
    unfold marker at h
    rw [List.cons_append, List.cons_append] at h
    obtain ⟨-, h⟩ := List.cons_prefix_cons.mp h
    obtain ⟨-, h⟩ := List.cons_prefix_cons.mp h
    exact hne (marker_tail_determines_name B K hB hK r h)
  | 1 =>
    unfold marker at h
    simp only [List.drop_succ_cons, List.drop_zero] at h
    rw [List.cons_append] at h
    obtain ⟨-, h⟩ := List.cons_prefix_cons.mp h
    cases K with
    | nil =>
      simp only [List.nil_append, List.cons_append] at h
      obtain ⟨hc, -⟩ := List.cons_prefix_cons.mp h
      exact absurd hc (by decide)
    | cons kk K' =>
      rw [List.cons_append, List.cons_append] at h
      obtain ⟨hc, -⟩ := List.cons_prefix_cons.mp h
      exact hK.1 (by rw [hc]; exact List.mem_cons_self _ _)
  | (j+2) =>
    unfold marker at h hi
    simp only [List.drop_succ_cons] at h
    simp only [List.length_cons, List.length_append, List.length_nil] at hi
    have hj : j < (K ++ ['}', '}']).length := by
      simp only [List.length_append, List.length_cons, List.length_nil]
      omega
    rw [List.drop_eq_getElem_cons hj, List.cons_append] at h
    obtain ⟨hc, -⟩ := List.cons_prefix_cons.mp h
    have hmem : (K ++ ['}', '}'])[j] ∈ K ++ ['}', '}'] := List.getElem_mem hj
    rw [← hc] at hmem
    rcases List.mem_append.mp hmem with hm | hm
    · exact hK.1 hm
    · simp at hm

/-- If no pattern occurrence starts inside a prefix `t` of `s`, the
left-to-right replacement copies `t` verbatim. -/
theorem replaceAll_copy (pat rep : List Char) : ∀ (t s : List Char), t <+: s →
    (∀ i < t.length, ¬ pat <+: s.drop i) → t <+: replaceAll pat rep s := by
  intro t
  induction t with
  | nil => intro s _ _; exact List.nil_prefix
  | cons a t' ih =>
    intro s hpre hcond
    cases s with
    | nil => exact absurd hpre (by simp)
    | cons c s' =>
      obtain ⟨hac, ht⟩ := List.cons_prefix_cons.mp hpre
      have h0 : ¬ pat <+: (c :: s') := by
        have := hcond 0 (by simp)
        simpa using this
      rw [replaceAll, dif_neg (fun hcon => h0 (List.isPrefixOf_iff_prefix.mp hcon.2))]
      refine List.cons_prefix_cons.mpr ⟨hac, ih s' ht (fun i hi => ?_)⟩
      have := hcond (i + 1) (by simp only [List.length_cons]; omega)
      simpa using this

/-- A marker occurrence at the very start of `s` survives replacement of
a different brace-free marker. -/
theorem replaceAll_marker_at_start {B K : List Char} (hB : braceFreeStr B)
    (hK : braceFreeStr K) (hne : B ≠ K) (rep : List Char) (s : List Char)
    (h : marker B <+: s) : marker B <+: replaceAll (marker K) rep s := by
  apply replaceAll_copy _ _ _ _ h
  intro i hi hpre
  obtain ⟨r', rfl⟩ := h
  rw [List.drop_append_of_le_length (le_of_lt hi)] at hpre
  exact marker_no_overlap hK hB (Ne.symm hne) i hi r' hpre

/-- Any marker occurrence in `s` survives replacement of a different
brace-free marker. -/
theorem replaceAll_marker_preserved {B K : List Char} (hB : braceFreeStr B)
    (hK : braceFreeStr K) (hne : B ≠ K) (rep : List Char) :
    ∀ s, marker B <:+: s → marker B <:+: replaceAll (marker K) rep s := by
  have main : ∀ (n : ℕ) (s : List Char), s.length = n → marker B <:+: s →
      marker B <:+: replaceAll (marker K) rep s := by
    intro n
    induction n using Nat.strong_induction_on with
    | _ n ih =>
      intro s hlen hinf
      cases s with
      | nil => exact absurd (List.infix_nil.mp hinf) (marker_ne_nil B)
      | cons c s' =>
        by_cases hg : (marker K).isPrefixOf (c :: s')
        · rw [replaceAll, dif_pos ⟨marker_ne_nil K, hg⟩]
          obtain ⟨a, b, hab⟩ := hinf
          by_cases hcase : (marker K).length ≤ a.length
          · have hdrop : (c :: s').drop (marker K).length =
                a.drop (marker K).length ++ (marker B ++ b) := by
              rw [← hab, List.append_assoc, List.drop_append_of_le_length hcase]
            have hinf2 : marker B <:+: (c :: s').drop (marker K).length := by
              rw [hdrop]
              exact ⟨a.drop (marker K).length, b, by rw [List.append_assoc]⟩
            have hlt : ((c :: s').drop (marker K).length).length < n := by
              have hK1 := List.length_pos.mpr (marker_ne_nil K)
              simp only [List.length_drop, List.length_cons] at hlen ⊢
              omega
            obtain ⟨x, y, hxy⟩ := ih _ hlt _ rfl hinf2
            exact ⟨rep ++ x, y, by rw [← hxy]; simp [List.append_assoc]⟩
          · push_neg at hcase
            obtain ⟨rest, hrest⟩ := List.isPrefixOf_iff_prefix.mp hg
            have h1 : marker B <+: (c :: s').drop a.length := by
              rw [← hab, List.append_assoc, List.drop_left]
              exact List.prefix_append (marker B) b
            rw [← hrest, List.drop_append_of_le_length (le_of_lt hcase)] at h1
            exact absurd h1 (marker_no_overlap hB hK hne a.length hcase rest)
        · rw [replaceAll, dif_neg (fun hcon => hg hcon.2)]
          rcases List.infix_cons_iff.mp hinf with hpre | htail
          · have hres := replaceAll_marker_at_start hB hK hne rep (c :: s') hpre
            rw [replaceAll, dif_neg (fun hcon => hg hcon.2)] at hres
            exact hres.isInfix
          · refine List.infix_cons (ih s'.length ?_ s' rfl htail)
            simp only [List.length_cons] at hlen
            omega
  exact fun s => main s.length s rfl

/-- C9: `replace_placeholders` never raises (the embedding is a total
function), and a marker whose brace-free name has no corresponding
replacement entry survives — character for character — the whole
replacement fold, whatever the template text and the other entries
(placeholder names, matched by `\w+`, never contain braces). -/
theorem replace_placeholders_unmatched (content : List Char)
    (replacements : List (List Char × List Char)) (B : List Char)
    (hB : braceFreeStr B)
    (hkeys : ∀ kv ∈ replacements, braceFreeStr kv.1 ∧ kv.1 ≠ B)
    (h : marker B <:+: content) :
    marker B <:+: replace_placeholders content replacements := by
  unfold replace_placeholders
  induction replacements generalizing content with
  | nil => exact h
  | cons kv rest ih =>
    obtain ⟨hk, hkB⟩ := hkeys kv (List.mem_cons_self _ _)
    simp only [List.foldl_cons]
    refine ih (replaceAll (wrapKey kv.1) kv.2 content)
      (fun kv' hm => hkeys kv' (List.mem_cons_of_mem _ hm)) ?_
    rw [wrapKey_eq_marker hk]
    exact replaceAll_marker_preserved hB hk (Ne.symm hkB) kv.2 content h

/-- The `GPX_TRACK` placeholder name. -/
def nameGpxTrack : List Char := ['G', 'P', 'X', '_', 'T', 'R', 'A', 'C', 'K']

/-- The `TITLE` placeholder name. -/
def nameTitle : List Char := ['T', 'I', 'T', 'L', 'E']

/-- A template holding a `TITLE` marker and a `GPX_TRACK` marker. -/
def exampleContent : List Char := marker nameTitle ++ (' ' :: marker nameGpxTrack)

theorem replace_placeholders_unmatched_witness :
    marker nameGpxTrack <:+:
      replace_placeholders exampleContent [(nameTitle, ['r', 'u', 'n'])] :=
  replace_placeholders_unmatched exampleContent [(nameTitle, ['r', 'u', 'n'])]
    nameGpxTrack (by decide)
    (by intro kv hm; simp only [List.mem_singleton] at hm; subst hm; exact ⟨by decide, by decide⟩)
    ⟨marker nameTitle ++ [' '], [], by simp [exampleContent]⟩

end Poster
